import Mathlib

/-!
Verification development for the MIND customer/task management application.

The definitions below are a shallow embedding of the state-management logic of
`src/App.tsx` (optimistic create/update/delete handlers, the refresh merge of
`fetchAllData`, the realtime change-feed handlers, the pending-id guard sets)
and of the column drag-and-drop handler of `src/components/CustomerSheet.tsx`.

Conventions:
- JavaScript record field values are modelled by `Value`.
- Raw (pre-normalization) identifiers, which may be strings or numbers in the
  database, are modelled by `RawId`; `String(x)` is `RawId.toStr`.
- A JavaScript `Set` of id strings is modelled as a duplicate-free usage of
  `List String` with `setAdd` / `setDelete` / `setHas` mirroring
  `add` / `delete` / `has`.
- The nested `data` blob of a customer is an association list
  `List (String × Value)`; JS object spread `\x7b...a, ...b\x7d` is `jsMergeData`.
-/

/-- A JavaScript scalar field value (text, number, or null). -/
inductive Value where
  | str (s : String)
  | num (n : Int)
  | null
deriving DecidableEq, Repr

/-- A raw identifier as returned by the database: either already a string or a
number.  `String(id)` in the source is `RawId.toStr`. -/
inductive RawId where
  | str (s : String)
  | num (n : Int)
deriving DecidableEq, Repr

/-- The conversion `String(x)` applied to a raw identifier. -/
def RawId.toStr : RawId → String
  | .str s => s
  | .num n => toString n

/-- Association-list lookup for a JS object field (`obj[k]`, `none` =
`undefined`). -/
def dlookup (k : String) : List (String × Value) → Option Value
  | [] => none
  | p :: rest => if p.1 = k then some p.2 else dlookup k rest

/-- JS `Set.add`: appends the element unless already present. -/
def setAdd (s : List String) (x : String) : List String :=
  if x ∈ s then s else s ++ [x]

/-- JS `Set.delete`: removes the element. -/
def setDelete (s : List String) (x : String) : List String :=
  s.filter (fun y => y != x)

/-- JS `Set.has`: membership test. -/
def setHas (s : List String) (x : String) : Bool :=
  s.contains x

theorem setHas_iff_mem {s : List String} {x : String} : setHas s x = true ↔ x ∈ s := by
  simp [setHas, List.contains_iff_exists_mem_beq]

theorem mem_setAdd {s : List String} {x y : String} :
    y ∈ setAdd s x ↔ y ∈ s ∨ y = x := by
  unfold setAdd
  split
  · rename_i hx
    constructor
    · exact Or.inl
    · rintro (h | rfl)
      · exact h
      · exact hx
  · simp

theorem mem_setDelete {s : List String} {x y : String} :
    y ∈ setDelete s x ↔ y ∈ s ∧ y ≠ x := by
  simp [setDelete, List.mem_filter]

theorem setHas_setAdd (s : List String) (x y : String) :
    setHas (setAdd s x) y = (setHas s y || y == x) := by
  rw [Bool.eq_iff_iff]
  simp [setHas_iff_mem, mem_setAdd]

theorem setHas_setDelete (s : List String) (x y : String) :
    setHas (setDelete s x) y = (setHas s y && (y != x)) := by
  rw [Bool.eq_iff_iff]
  simp [setHas_iff_mem, mem_setDelete]

theorem mem_foldl_setDelete (ids : List String) (s : List String) (y : String) :
    y ∈ ids.foldl setDelete s ↔ y ∈ s ∧ y ∉ ids := by
  induction ids generalizing s with
  | nil => simp
  | cons i rest ih =>
    simp only [List.foldl_cons, ih, mem_setDelete, List.mem_cons]
    constructor
    · rintro ⟨⟨hs, hne⟩, hrest⟩
      exact ⟨hs, by rintro (rfl | h) <;> [exact hne rfl; exact hrest h]⟩
    · rintro ⟨hs, hni⟩
      exact ⟨⟨hs, fun h => hni (Or.inl h)⟩, fun h => hni (Or.inr h)⟩

theorem setHas_foldl_setDelete (ids : List String) (s : List String) (y : String) :
    setHas (ids.foldl setDelete s) y = (setHas s y && !ids.contains y) := by
  rw [Bool.eq_iff_iff]
  simp [setHas_iff_mem, mem_foldl_setDelete]

/-- A customer record as held in the store (`id` already normalized). -/
structure Customer where
  id : String
  name : String
  status : String
  data : List (String × Value)
  created_at : String
deriving DecidableEq, Repr

/-- A customer row as delivered by the database (id not yet normalized). -/
structure RawCustomer where
  id : RawId
  name : String
  status : String
  data : List (String × Value)
  created_at : String
deriving DecidableEq, Repr

/-- The normalization `(c) => (\x7b ...c, id: String(c.id) \x7d)` from `fetchAllData` /
`normalize` in the realtime subscription block. -/
def normalizeCustomer (c : RawCustomer) : Customer :=
  { id := c.id.toStr, name := c.name, status := c.status, data := c.data,
    created_at := c.created_at }

/-- A task record as held in the store (`id` and `customerId` normalized).
Named `TaskRec` because `Task` is taken by the Lean core library. -/
structure TaskRec where
  id : String
  customerId : String
  title : String
  created_at : String
deriving DecidableEq, Repr

/-- A task row as delivered by the database. -/
structure RawTask where
  id : RawId
  customerId : RawId
  title : String
  created_at : String
deriving DecidableEq, Repr

/-- The normalization
`(t) => (\x7b ...t, id: String(t.id), customerId: String(t.customerId) \x7d)`
from `fetchAllData` / `normalizeTask` in the subscription block. -/
def normalizeTask (t : RawTask) : TaskRec :=
  { id := t.id.toStr, customerId := t.customerId.toStr, title := t.title,
    created_at := t.created_at }

/-!
## Refresh merge (`fetchAllData`, src/App.tsx lines 78–112)

The merge is identical for customers and tasks, parameterized by the id
projection.  `clearConfirmed` is the `fetched.forEach` loop that deletes every
fetched id from the pending set; the filter keeps the previous records that are
still pending and absent from the fetch.
-/

/-- The `fetched.forEach(f => if pending.has(f.id) pending.delete(f.id))` loop. -/
def clearConfirmed (getId : α → String) (fetched : List α) (pending : List String) :
    List String :=
  fetched.foldl
    (fun p f => if setHas p (getId f) then setDelete p (getId f) else p) pending

/-- The functional update passed to `setCustomers` / `setTasks` in
`fetchAllData`: returns the new visible collection and the new pending set. -/
def refreshMerge (getId : α → String) (prev fetched : List α)
    (pending : List String) : List α × List String :=
  let pending2 := clearConfirmed getId fetched pending
  let pendingItems := prev.filter
    (fun c => setHas pending2 (getId c) && !(fetched.any (fun f => getId f == getId c)))
  (fetched ++ pendingItems, pending2)

/-- The customers branch of `fetchAllData`, including id normalization. -/
def customersRefresh (prev : List Customer) (raw : List RawCustomer)
    (pending : List String) : List Customer × List String :=
  refreshMerge Customer.id prev (raw.map normalizeCustomer) pending

/-- The tasks branch of `fetchAllData`, including id normalization. -/
def tasksRefresh (prev : List TaskRec) (raw : List RawTask)
    (pending : List String) : List TaskRec × List String :=
  refreshMerge TaskRec.id prev (raw.map normalizeTask) pending

theorem mem_clearConfirmed (getId : α → String) (fetched : List α)
    (pending : List String) (y : String) :
    y ∈ clearConfirmed getId fetched pending ↔
      y ∈ pending ∧ ∀ f ∈ fetched, getId f ≠ y := by
  induction fetched generalizing pending with
  | nil => simp [clearConfirmed]
  | cons f rest ih =>
    simp only [clearConfirmed, List.foldl_cons] at *
    rw [ih]
    have step : ∀ z, z ∈ (if setHas pending (getId f) then setDelete pending (getId f)
        else pending) ↔ z ∈ pending ∧ getId f ≠ z := by
      intro z
      split
      · rw [mem_setDelete]
        exact ⟨fun ⟨h1, h2⟩ => ⟨h1, fun h => h2 h.symm⟩,
               fun ⟨h1, h2⟩ => ⟨h1, fun h => h2 h.symm⟩⟩
      · rename_i hno
        constructor
        · intro hz
          refine ⟨hz, fun hgz => ?_⟩
          exact hno (setHas_iff_mem.mpr (hgz ▸ hz))
        · exact fun h => h.1
    rw [step]
    constructor
    · rintro ⟨⟨h1, h2⟩, h3⟩
      refine ⟨h1, fun g hg => ?_⟩
      rcases List.mem_cons.mp hg with rfl | hg2
      · exact h2
      · exact h3 g hg2
    · rintro ⟨h1, h2⟩
      exact ⟨⟨h1, h2 f (List.mem_cons_self f rest)⟩,
             fun g hg => h2 g (List.mem_cons_of_mem f hg)⟩

theorem setHas_clearConfirmed (getId : α → String) (fetched : List α)
    (pending : List String) (y : String) :
    setHas (clearConfirmed getId fetched pending) y =
      (setHas pending y && !(fetched.any (fun f => getId f == y))) := by
  rw [Bool.eq_iff_iff]
  simp [setHas_iff_mem, mem_clearConfirmed]

theorem refreshMerge_fst_eq (getId : α → String) (prev fetched : List α)
    (pending : List String) :
    (refreshMerge getId prev fetched pending).1 =
      fetched ++ prev.filter
        (fun c => setHas pending (getId c) &&
          !(fetched.any (fun f => getId f == getId c))) := by
  unfold refreshMerge
  simp only []
  congr 1
  apply List.filter_congr
  intro c _
  rw [setHas_clearConfirmed]
  cases fetched.any (fun f => getId f == getId c) <;> simp

theorem refreshMerge_retains (getId : α → String) (prev fetched : List α)
    (pending : List String) (c : α) (hc : c ∈ prev)
    (hp : setHas pending (getId c) = true)
    (hf : ∀ f ∈ fetched, getId f ≠ getId c) :
    c ∈ (refreshMerge getId prev fetched pending).1 := by
  rw [refreshMerge_fst_eq]
  apply List.mem_append_right
  apply List.mem_filter.mpr
  refine ⟨hc, ?_⟩
  have hany : fetched.any (fun f => getId f == getId c) = false := by
    rw [List.any_eq_false]
    intro f hfm
    simpa using hf f hfm
  simp [hp, hany]

/-- C1: for every full refresh (customers and tasks), with `P` the pending set,
`prev` the previous store collection and `fetched` the id-normalized snapshot:
the new pending set is `P` minus every identifier occurring in `fetched`, the
visible collection is `fetched` followed by exactly those records of `prev`
whose identifier is in `P` and does not occur in `fetched`, and any record
whose identifier is pending and absent from `fetched` is retained unchanged. -/
theorem refresh_merge_pending_protection :
    (∀ (prev : List Customer) (raw : List RawCustomer) (pending : List String),
      (∀ x, setHas (customersRefresh prev raw pending).2 x =
        (setHas pending x &&
          !((raw.map normalizeCustomer).any (fun f => f.id == x)))) ∧
      (customersRefresh prev raw pending).1 =
        raw.map normalizeCustomer ++ prev.filter
          (fun c => setHas pending c.id &&
            !((raw.map normalizeCustomer).any (fun f => f.id == c.id))) ∧
      (∀ c ∈ prev, setHas pending c.id = true →
        (∀ f ∈ raw.map normalizeCustomer, f.id ≠ c.id) →
        c ∈ (customersRefresh prev raw pending).1)) ∧
    (∀ (prev : List TaskRec) (raw : List RawTask) (pending : List String),
      (∀ x, setHas (tasksRefresh prev raw pending).2 x =
        (setHas pending x &&
          !((raw.map normalizeTask).any (fun f => f.id == x)))) ∧
      (tasksRefresh prev raw pending).1 =
        raw.map normalizeTask ++ prev.filter
          (fun t => setHas pending t.id &&
            !((raw.map normalizeTask).any (fun f => f.id == t.id))) ∧
      (∀ t ∈ prev, setHas pending t.id = true →
        (∀ f ∈ raw.map normalizeTask, f.id ≠ t.id) →
        t ∈ (tasksRefresh prev raw pending).1)) := by
  constructor
  · intro prev raw pending
    refine ⟨fun x => setHas_clearConfirmed _ _ _ _,
            refreshMerge_fst_eq _ _ _ _, fun c hc hp hf => ?_⟩
    exact refreshMerge_retains Customer.id prev (raw.map normalizeCustomer)
      pending c hc hp hf
  · intro prev raw pending
    refine ⟨fun x => setHas_clearConfirmed _ _ _ _,
            refreshMerge_fst_eq _ _ _ _, fun t ht hp hf => ?_⟩
    exact refreshMerge_retains TaskRec.id prev (raw.map normalizeTask)
      pending t ht hp hf

/-- Witness for C1 at a concrete input: a pending customer `c_1_1` absent from
the fetched snapshot survives the refresh unchanged. -/
theorem refresh_merge_pending_protection_witness :
    { id := "c_1_1", name := "Yamada", status := "active", data := [],
      created_at := "t0" : Customer } ∈
      (customersRefresh
        [{ id := "c_1_1", name := "Yamada", status := "active", data := [],
           created_at := "t0" }]
        [{ id := RawId.num 7, name := "Sato", status := "active", data := [],
           created_at := "t1" }]
        ["c_1_1"]).1 :=
  (refresh_merge_pending_protection.1
      [{ id := "c_1_1", name := "Yamada", status := "active", data := [],
         created_at := "t0" }]
      [{ id := RawId.num 7, name := "Sato", status := "active", data := [],
         created_at := "t1" }]
      ["c_1_1"]).2.2
    { id := "c_1_1", name := "Yamada", status := "active", data := [],
      created_at := "t0" }
    (by decide) (by decide) (by decide)

/-!
## Realtime change-feed handlers (src/App.tsx lines 173–196)

`handleCustomerChange` deduplicates INSERT events against the current store;
`handleTaskChange` does not: its INSERT branch appends unconditionally.
-/

/-- Handler `handleCustomerChange`, INSERT branch. -/
def handleCustomerInsert (store : List Customer) (payload : RawCustomer) :
    List Customer :=
  let newId := payload.id.toStr
  if store.any (fun existing => existing.id == newId) then store
  else store ++ [normalizeCustomer payload]

/-- Handler `handleCustomerChange`, UPDATE branch. -/
def handleCustomerUpdateEvent (store : List Customer) (payload : RawCustomer) :
    List Customer :=
  store.map (fun item =>
    if item.id == payload.id.toStr then normalizeCustomer payload else item)

/-- Handler `handleCustomerChange`, DELETE branch. -/
def handleCustomerDeleteEvent (store : List Customer) (oldId : RawId) :
    List Customer :=
  store.filter (fun item => item.id != oldId.toStr)

/-- Handler `handleTaskChange`, INSERT branch (note: no duplicate check). -/
def handleTaskInsert (store : List TaskRec) (payload : RawTask) : List TaskRec :=
  store ++ [normalizeTask payload]

/-- Handler `handleTaskChange`, UPDATE branch. -/
def handleTaskUpdateEvent (store : List TaskRec) (payload : RawTask) :
    List TaskRec :=
  store.map (fun item =>
    if item.id == payload.id.toStr then normalizeTask payload else item)

/-- Handler `handleTaskChange`, DELETE branch. -/
def handleTaskDeleteEvent (store : List TaskRec) (oldId : RawId) : List TaskRec :=
  store.filter (fun item => item.id != oldId.toStr)

/-- Counterexample to C4: for tasks the insert change-feed handler does NOT
drop an event whose identifier is already present in the store — the store
grows to two copies of task id `t1`. -/
theorem task_insert_event_duplicates :
    (RawId.str "t1").toStr ∈
      ([{ id := "t1", customerId := "5", title := "dig", created_at := "t0" }]
        : List TaskRec).map TaskRec.id ∧
    handleTaskInsert
        [{ id := "t1", customerId := "5", title := "dig", created_at := "t0" }]
        { id := RawId.str "t1", customerId := RawId.num 5, title := "dig",
          created_at := "t0" } ≠
      [{ id := "t1", customerId := "5", title := "dig", created_at := "t0" }] := by
  decide

/-- C4 (amended): an inbound insert change-feed event deduplicates against the
store for customers only — if a customer with the same normalized identifier
already exists the store is unchanged, otherwise the record is appended — while
for tasks the insert branch appends the record unconditionally, so a duplicate
entry is possible. -/
theorem insert_event_dedupe :
    (∀ (store : List Customer) (payload : RawCustomer),
      (store.any (fun existing => existing.id == payload.id.toStr) = true →
        handleCustomerInsert store payload = store) ∧
      (store.any (fun existing => existing.id == payload.id.toStr) = false →
        handleCustomerInsert store payload = store ++ [normalizeCustomer payload])) ∧
    (∀ (store : List TaskRec) (payload : RawTask),
      handleTaskInsert store payload = store ++ [normalizeTask payload]) := by
  refine ⟨fun store payload => ⟨fun h => ?_, fun h => ?_⟩, fun store payload => rfl⟩
  · simp [handleCustomerInsert, h]
  · simp [handleCustomerInsert, h]

/-- Witness for C4's amended theorem: a duplicate-id customer insert event is
ignored at a concrete input. -/
theorem insert_event_dedupe_witness :
    handleCustomerInsert
        [{ id := "9", name := "Yamada", status := "active", data := [],
           created_at := "t0" }]
        { id := RawId.num 9, name := "Yamada", status := "active", data := [],
          created_at := "t1" } =
      [{ id := "9", name := "Yamada", status := "active", data := [],
         created_at := "t0" }] :=
  (insert_event_dedupe.1
      [{ id := "9", name := "Yamada", status := "active", data := [],
         created_at := "t0" }]
      { id := RawId.num 9, name := "Yamada", status := "active", data := [],
        created_at := "t1" }).1 (by decide)

theorem clearConfirmed_eq_self (getId : α → String) :
    ∀ (fetched : List α) (pending : List String),
      (∀ f ∈ fetched, setHas pending (getId f) = false) →
      clearConfirmed getId fetched pending = pending
  | [], _, _ => rfl
  | f :: rest, pending, h => by
      have hf : setHas pending (getId f) = false := h f (List.mem_cons_self f rest)
      show List.foldl _ _ (f :: rest) = pending
      rw [List.foldl_cons]
      simp only [hf, Bool.false_eq_true, if_false]
      exact clearConfirmed_eq_self getId rest pending
        (fun g hg => h g (List.mem_cons_of_mem f hg))

theorem setHas_clearConfirmed_of_fetched (getId : α → String) (fetched : List α)
    (pending : List String) (f : α) (hf : f ∈ fetched) :
    setHas (clearConfirmed getId fetched pending) (getId f) = false := by
  rw [setHas_clearConfirmed]
  have hany : fetched.any (fun g => getId g == getId f) = true :=
    List.any_eq_true.mpr ⟨f, hf, by simp⟩
  simp [hany]

theorem refreshMerge_idem (getId : α → String) (prev fetched : List α)
    (pending : List String) :
    refreshMerge getId (refreshMerge getId prev fetched pending).1 fetched
        (refreshMerge getId prev fetched pending).2 =
      refreshMerge getId prev fetched pending := by
  have hp2 : clearConfirmed getId fetched
      (refreshMerge getId prev fetched pending).2 =
      (refreshMerge getId prev fetched pending).2 := by
    apply clearConfirmed_eq_self
    intro f hf
    exact setHas_clearConfirmed_of_fetched getId fetched pending f hf
  unfold refreshMerge
  simp only [hp2]
  unfold refreshMerge at hp2
  simp only [] at hp2 ⊢
  rw [hp2]
  congr 1
  rw [List.filter_append]
  have hfetched : fetched.filter
      (fun c => setHas (clearConfirmed getId fetched pending) (getId c) &&
        !(fetched.any (fun f => getId f == getId c))) = [] := by
    rw [List.filter_eq_nil_iff]
    intro f hf
    rw [setHas_clearConfirmed_of_fetched getId fetched pending f hf]
    simp
  have hkeep : (prev.filter
      (fun c => setHas (clearConfirmed getId fetched pending) (getId c) &&
        !(fetched.any (fun f => getId f == getId c)))).filter
      (fun c => setHas (clearConfirmed getId fetched pending) (getId c) &&
        !(fetched.any (fun f => getId f == getId c))) =
      prev.filter
      (fun c => setHas (clearConfirmed getId fetched pending) (getId c) &&
        !(fetched.any (fun f => getId f == getId c))) := by
    rw [List.filter_eq_self]
    intro a ha
    exact (List.mem_filter.mp ha).2
  rw [hfetched, hkeep]
  simp

/-- Counterexample to C7: applying the same task insert change-feed event twice
does not yield the same store as applying it once (the task is appended twice). -/
theorem task_insert_event_not_idempotent :
    handleTaskInsert
        (handleTaskInsert []
          { id := RawId.str "t1", customerId := RawId.num 5, title := "dig",
            created_at := "t0" })
        { id := RawId.str "t1", customerId := RawId.num 5, title := "dig",
          created_at := "t0" } ≠
      handleTaskInsert []
        { id := RawId.str "t1", customerId := RawId.num 5, title := "dig",
          created_at := "t0" } := by
  decide

/-- C7 (amended): the refresh merge is idempotent (applying it twice with the
same fetched snapshot yields the same collection and pending set), and the
change-feed handlers are idempotent for customer inserts and for updates and
deletes of both kinds; task insert events are excluded (they are not
idempotent, see the counterexample). -/
theorem merge_and_feed_idempotent :
    (∀ (α : Type) (getId : α → String) (prev fetched : List α)
        (pending : List String),
      refreshMerge getId (refreshMerge getId prev fetched pending).1 fetched
          (refreshMerge getId prev fetched pending).2 =
        refreshMerge getId prev fetched pending) ∧
    (∀ (store : List Customer) (payload : RawCustomer),
      handleCustomerInsert (handleCustomerInsert store payload) payload =
        handleCustomerInsert store payload) ∧
    (∀ (store : List Customer) (payload : RawCustomer),
      handleCustomerUpdateEvent (handleCustomerUpdateEvent store payload) payload =
        handleCustomerUpdateEvent store payload) ∧
    (∀ (store : List Customer) (oldId : RawId),
      handleCustomerDeleteEvent (handleCustomerDeleteEvent store oldId) oldId =
        handleCustomerDeleteEvent store oldId) ∧
    (∀ (store : List TaskRec) (payload : RawTask),
      handleTaskUpdateEvent (handleTaskUpdateEvent store payload) payload =
        handleTaskUpdateEvent store payload) ∧
    (∀ (store : List TaskRec) (oldId : RawId),
      handleTaskDeleteEvent (handleTaskDeleteEvent store oldId) oldId =
        handleTaskDeleteEvent store oldId) := by
  refine ⟨fun α getId prev fetched pending => refreshMerge_idem getId prev fetched pending,
          fun store payload => ?_, fun store payload => ?_, fun store oldId => ?_,
          fun store payload => ?_, fun store oldId => ?_⟩
  · by_cases h : store.any
        (fun existing => existing.id == payload.id.toStr) = true
    · unfold handleCustomerInsert
      simp only [h, if_true]
    · rw [Bool.not_eq_true] at h
      have h1 : handleCustomerInsert store payload =
          store ++ [normalizeCustomer payload] := by
        unfold handleCustomerInsert
        simp only [h, Bool.false_eq_true, if_false]
      rw [h1]
      unfold handleCustomerInsert
      have h2 : (store ++ [normalizeCustomer payload]).any
          (fun existing => existing.id == payload.id.toStr) = true := by
        rw [List.any_append]
        simp [normalizeCustomer]
      simp only [h2, if_true]
  · unfold handleCustomerUpdateEvent
    rw [List.map_map]
    apply List.map_congr_left
    intro item _
    by_cases h : item.id = payload.id.toStr
    · simp [Function.comp, h, normalizeCustomer]
    · simp [Function.comp, h]
  · unfold handleCustomerDeleteEvent
    rw [List.filter_filter]
    apply List.filter_congr
    intro a _
    simp
  · unfold handleTaskUpdateEvent
    rw [List.map_map]
    apply List.map_congr_left
    intro item _
    by_cases h : item.id = payload.id.toStr
    · simp [Function.comp, h, normalizeTask]
    · simp [Function.comp, h]
  · unfold handleTaskDeleteEvent
    rw [List.filter_filter]
    apply List.filter_congr
    intro a _
    simp

/-- JS object spread `\x7b ...a, ...b \x7d` on `data` blobs: keys of `a` keep
their position but take `b`'s value when `b` has the key; keys of `b` not in
`a` are appended. -/
def jsMergeData (a b : List (String × Value)) : List (String × Value) :=
  a.map (fun p => match dlookup p.1 b with
    | some v => (p.1, v)
    | none => p) ++
  b.filter (fun q => !(a.any (fun p => p.1 == q.1)))

theorem dlookup_append (k : String) (xs ys : List (String × Value)) :
    dlookup k (xs ++ ys) =
      match dlookup k xs with
      | some v => some v
      | none => dlookup k ys := by
  induction xs with
  | nil => simp [dlookup]
  | cons p rest ih =>
    by_cases h : p.1 = k
    · simp [dlookup, h]
    · simp [dlookup, h, ih]

theorem dlookup_map_override (k : String) (a b : List (String × Value)) :
    dlookup k (a.map (fun p => match dlookup p.1 b with
        | some v => (p.1, v)
        | none => p)) =
      match dlookup k a with
      | some v => (match dlookup k b with
          | some w => some w
          | none => some v)
      | none => none := by
  induction a with
  | nil => simp [dlookup]
  | cons p rest ih =>
    by_cases h : p.1 = k
    · subst h
      cases hb : dlookup p.1 b <;> simp [dlookup, hb]
    · cases hp : dlookup p.1 b <;> simp [dlookup, h, hp, ih]

theorem dlookup_filter_keep (k : String) (ys : List (String × Value))
    (P : String × Value → Bool) (h : ∀ y, y.1 = k → P y = true) :
    dlookup k (ys.filter P) = dlookup k ys := by
  induction ys with
  | nil => rfl
  | cons y rest ih =>
    by_cases hy : y.1 = k
    · have := h y hy
      simp [dlookup, this, hy]
    · cases hP : P y <;> simp [dlookup, hP, hy, ih]

theorem dlookup_filter_drop (k : String) (ys : List (String × Value))
    (P : String × Value → Bool) (h : ∀ y, y.1 = k → P y = false) :
    dlookup k (ys.filter P) = none := by
  induction ys with
  | nil => rfl
  | cons y rest ih =>
    by_cases hy : y.1 = k
    · have := h y hy
      simp [dlookup, this, hy, ih]
    · cases hP : P y <;> simp [dlookup, hP, hy, ih]

theorem dlookup_eq_none_of_not_any {k : String} {a : List (String × Value)}
    (h : a.any (fun p => p.1 == k) = false) : dlookup k a = none := by
  induction a with
  | nil => rfl
  | cons p rest ih =>
    simp only [List.any_cons, Bool.or_eq_false_iff] at h
    have hp : ¬ p.1 = k := by simpa using h.1
    simp [dlookup, hp, ih h.2]

theorem dlookup_ne_none_of_any {k : String} {a : List (String × Value)}
    (h : a.any (fun p => p.1 == k) = true) : dlookup k a ≠ none := by
  induction a with
  | nil => simp at h
  | cons p rest ih =>
    simp only [List.any_cons, Bool.or_eq_true] at h
    by_cases hp : p.1 = k
    · simp [dlookup, hp]
    · rcases h with h | h
      · exact absurd (by simpa using h) hp
      · simp [dlookup, hp, ih h]

/-- Field lookup after a JS spread merge: the update's value wins when present,
otherwise the original value is kept. -/
theorem dlookup_jsMergeData (k : String) (a b : List (String × Value)) :
    dlookup k (jsMergeData a b) =
      match dlookup k b with
      | some v => some v
      | none => dlookup k a := by
  unfold jsMergeData
  rw [dlookup_append, dlookup_map_override]
  cases hany : a.any (fun p => p.1 == k) with
  | true =>
    have ha := dlookup_ne_none_of_any hany
    cases hA : dlookup k a with
    | none => exact absurd hA ha
    | some v => cases hB : dlookup k b <;> simp [hB]
  | false =>
    have hA := dlookup_eq_none_of_not_any hany
    rw [hA]
    have hkeep : dlookup k (b.filter (fun q => !(a.any (fun p => p.1 == q.1)))) =
        dlookup k b := by
      apply dlookup_filter_keep
      intro y hy
      rw [hy, hany]
      rfl
    rw [hkeep]
    cases hB : dlookup k b <;> simp [hB]

/-!
## Optimistic mutation handlers (src/App.tsx lines 246–431)

Each handler is embedded as a function from the current application state (and
the gateway's response, supplied as an input) to the new state plus the ordered
trace of observable actions it performs: store updates, remote requests, and
user-visible alerts.  `setTimeout(cb, 5000)` is modelled by appending a
`Timer` describing the delayed pending-set deletions; `fireTimer` is the
elapse of that timeout.
-/

/-- An observable action of a handler, in execution order. -/
inductive Event where
  | storeUpdate (kind : String)
  | remoteCall (table : String) (op : String)
  | alertShown (msg : String)
deriving DecidableEq, Repr

/-- A scheduled `setTimeout` releasing pending ids after `delayMs`. -/
structure Timer where
  delayMs : Nat
  kind : String
  ids : List String
deriving DecidableEq, Repr

/-- The reconciliation-relevant part of the `App` component's state:
the customer and task collections, the two pending-id guard sets
(`pendingAddsRef`, `pendingTaskAddsRef`) and the scheduled timers. -/
structure StoreState where
  customers : List Customer
  tasks : List TaskRec
  pendingAdds : List String
  pendingTaskAdds : List String
  timers : List Timer
deriving DecidableEq, Repr

/-- Elapse of a scheduled timeout: unconditionally deletes the timer's ids
from the guard set of its entity kind. -/
def fireTimer (st : StoreState) (t : Timer) : StoreState :=
  if t.kind == "customers" then
    { st with pendingAdds := t.ids.foldl setDelete st.pendingAdds }
  else
    { st with pendingTaskAdds := t.ids.foldl setDelete st.pendingTaskAdds }

/-- A column definition (`types.ts` `Column`), as used by `handleAddCustomer`
to pre-fill the `data` blob and by the sheet's drag-and-drop reordering. -/
structure Column where
  id : String
  title : String
  type : String
  options : List String
  removable : Bool
  order : Int
deriving DecidableEq, Repr

/-- The argument of `handleAddCustomer` (`Omit<Customer, 'id' | 'created_at'>`). -/
structure CustomerDraft where
  name : String
  status : String
  data : List (String × Value)
deriving DecidableEq, Repr

/-- The argument of `handleAddTask` (`Omit<Task, 'id' | 'created_at'>`). -/
structure TaskDraft where
  customerId : String
  title : String
deriving DecidableEq, Repr

/-- Handler `handleAddCustomer` (src/App.tsx lines 246–306).  The locally generated id
(`c_<timestamp>_<random>`), the creation timestamp and the gateway's response
to the insert are inputs. -/
def handleAddCustomer (st : StoreState) (columns : List Column)
    (draft : CustomerDraft) (newId : String) (nowIso : String)
    (response : Except String RawCustomer) : StoreState × List Event :=
  let pending1 := setAdd st.pendingAdds newId
  let initialData := columns.foldl
    (fun d col => if dlookup col.id d = none then d ++ [(col.id, Value.str "")] else d)
    draft.data
  let newCustomer : Customer :=
    { id := newId, name := draft.name, status := draft.status,
      data := initialData, created_at := nowIso }
  let customers1 := st.customers ++ [newCustomer]
  match response with
  | .error msg =>
      ({ st with
          customers := customers1.filter (fun c => c.id != newId),
          pendingAdds := setDelete pending1 newId },
       [Event.storeUpdate "customers", Event.remoteCall "customers" "insert",
        Event.alertShown ("登録に失敗しました。\nエラー: " ++ msg),
        Event.storeUpdate "customers"])
  | .ok data =>
      let returnedId := data.id.toStr
      if returnedId = newId then
        ({ st with
            customers := customers1,
            pendingAdds := pending1,
            timers := st.timers ++ [{ delayMs := 5000, kind := "customers",
                                      ids := [newId] }] },
         [Event.storeUpdate "customers", Event.remoteCall "customers" "insert"])
      else
        ({ st with
            customers := customers1.map
              (fun c => if c.id == newId then normalizeCustomer data else c),
            pendingAdds := setDelete (setAdd pending1 returnedId) newId,
            timers := st.timers ++ [{ delayMs := 5000, kind := "customers",
                                      ids := [newId, returnedId] }] },
         [Event.storeUpdate "customers", Event.remoteCall "customers" "insert",
          Event.storeUpdate "customers"])

/-- Handler `handleAddTask` (src/App.tsx lines 382–423). -/
def handleAddTask (st : StoreState) (draft : TaskDraft) (newId : String)
    (nowIso : String) (response : Except String RawTask) :
    StoreState × List Event :=
  let pending1 := setAdd st.pendingTaskAdds newId
  let newTask : TaskRec :=
    { id := newId, customerId := draft.customerId, title := draft.title,
      created_at := nowIso }
  let tasks1 := st.tasks ++ [newTask]
  match response with
  | .error msg =>
      ({ st with
          tasks := tasks1.filter (fun t => t.id != newId),
          pendingTaskAdds := setDelete pending1 newId },
       [Event.storeUpdate "tasks", Event.remoteCall "tasks" "insert",
        Event.alertShown ("タスク登録失敗: " ++ msg),
        Event.storeUpdate "tasks"])
  | .ok data =>
      let returnedId := data.id.toStr
      if returnedId = newId then
        ({ st with
            tasks := tasks1,
            pendingTaskAdds := pending1,
            timers := st.timers ++ [{ delayMs := 5000, kind := "tasks",
                                      ids := [newId] }] },
         [Event.storeUpdate "tasks", Event.remoteCall "tasks" "insert"])
      else
        ({ st with
            tasks := tasks1.map
              (fun t => if t.id == newId then
                  { t with title := data.title, created_at := data.created_at,
                           id := returnedId,
                           customerId := data.customerId.toStr }
                else t),
            pendingTaskAdds := setDelete (setAdd pending1 returnedId) newId,
            timers := st.timers ++ [{ delayMs := 5000, kind := "tasks",
                                      ids := [newId, returnedId] }] },
         [Event.storeUpdate "tasks", Event.remoteCall "tasks" "insert",
          Event.storeUpdate "tasks"])

/-- The argument of `handleUpdateCustomer` (`Partial<Customer>`): absent fields
are `none`.  The source never passes a partial `id` or `created_at`. -/
structure CustomerUpdate where
  name : Option String
  status : Option String
  data : Option (List (String × Value))
deriving DecidableEq, Repr

/-- The spread `\x7b ...c, ...updatedFields,
data: updatedFields.data ? \x7b ...c.data, ...updatedFields.data \x7d : c.data \x7d`
in `handleUpdateCustomer`'s optimistic update. -/
def applyCustomerUpdate (upd : CustomerUpdate) (c : Customer) : Customer :=
  { c with
      name := upd.name.getD c.name,
      status := upd.status.getD c.status,
      data := match upd.data with
        | some d => jsMergeData c.data d
        | none => c.data }

/-- Handler `handleUpdateCustomer` (src/App.tsx lines 308–335).  `selectResp` is the
gateway's answer to the read-back of the customer's current `data` blob used
to build the remote payload (its content does not influence the local store). -/
def handleUpdateCustomer (st : StoreState) (customerId : String)
    (upd : CustomerUpdate)
    (selectResp : Except String (List (String × Value))) :
    StoreState × List Event :=
  let customers1 := st.customers.map
    (fun c => if c.id == customerId then applyCustomerUpdate upd c else c)
  let st1 := { st with customers := customers1 }
  match upd.data with
  | some _ =>
      match selectResp with
      | .error _ =>
          (st1, [Event.storeUpdate "customers",
                 Event.remoteCall "customers" "select"])
      | .ok _ =>
          (st1, [Event.storeUpdate "customers",
                 Event.remoteCall "customers" "select",
                 Event.remoteCall "customers" "update"])
  | none =>
      (st1, [Event.storeUpdate "customers",
             Event.remoteCall "customers" "update"])

/-- Handler `handleDeleteCustomer` (src/App.tsx lines 337–341): removes the customer
from the local store, then issues the remote delete of the dependent tasks and
the remote delete of the customer.  The local task collection is not touched. -/
def handleDeleteCustomer (st : StoreState) (customerId : String) :
    StoreState × List Event :=
  ({ st with customers := st.customers.filter (fun c => c.id != customerId) },
   [Event.storeUpdate "customers", Event.remoteCall "tasks" "delete",
    Event.remoteCall "customers" "delete"])

/-- The argument of `handleUpdateTask` (`Partial<Task>`). -/
structure TaskUpdate where
  customerId : Option String
  title : Option String
deriving DecidableEq, Repr

/-- Handler `handleUpdateTask` (src/App.tsx lines 428–431). -/
def handleUpdateTask (st : StoreState) (taskId : String) (upd : TaskUpdate) :
    StoreState × List Event :=
  let tasks1 := st.tasks.map
    (fun t => if t.id == taskId then
        { t with customerId := upd.customerId.getD t.customerId,
                 title := upd.title.getD t.title }
      else t)
  ({ st with tasks := tasks1 },
   [Event.storeUpdate "tasks", Event.remoteCall "tasks" "update"])

/-- Handler `handleDeleteTask` (src/App.tsx lines 424–427). -/
def handleDeleteTask (st : StoreState) (taskId : String) :
    StoreState × List Event :=
  ({ st with tasks := st.tasks.filter (fun t => t.id != taskId) },
   [Event.storeUpdate "tasks", Event.remoteCall "tasks" "delete"])

/-- Whether an event is a local store mutation. -/
def Event.isStore : Event → Bool
  | .storeUpdate _ => true
  | _ => false

/-- Whether an event is a request to the remote gateway. -/
def Event.isRemote : Event → Bool
  | .remoteCall _ _ => true
  | _ => false

/-- Whether the trace contains a store update strictly before its first
remote call. -/
def storeBeforeRemote (tr : List Event) : Bool :=
  (tr.takeWhile (fun e => ! e.isRemote)).any (fun e => e.isStore)

theorem filter_id_ne_eq_self (getId : α → String) (l : List α) (x : String)
    (h : l.any (fun c => getId c == x) = false) :
    l.filter (fun c => getId c != x) = l := by
  rw [List.filter_eq_self]
  intro a ha
  rw [List.any_eq_false] at h
  simpa using h a ha

theorem filter_id_eq_nil (getId : α → String) (l : List α) (x : String)
    (h : l.any (fun c => getId c == x) = false) :
    l.filter (fun c => getId c == x) = [] := by
  rw [List.filter_eq_nil_iff]
  intro a ha
  rw [List.any_eq_false] at h
  simpa using h a ha

theorem map_swap_eq_self (getId : α → String) (l : List α) (x : String)
    (r : α → α) (h : l.any (fun c => getId c == x) = false) :
    l.map (fun c => if getId c == x then r c else c) = l := by
  have := List.map_congr_left (l := l)
    (f := fun c => if getId c == x then r c else c) (g := fun c => c) ?_
  · rw [this, List.map_id']
  · intro a ha
    rw [List.any_eq_false] at h
    have := h a ha
    simp only [Bool.not_eq_true] at this
    simp [this]

/-- C2: for every create sequence (customer or task) whose remote insert
fails, the handler rolls the optimistic record back (the collection equals the
pre-create one, provided the generated id was fresh), removes the generated id
from the pending set, raises a user-visible alert carrying the server error
message, and issues no retry (the trace holds exactly one remote call). -/
theorem create_failure_rollback :
    (∀ (st : StoreState) (columns : List Column) (draft : CustomerDraft)
        (newId nowIso msg : String),
      st.customers.any (fun c => c.id == newId) = false →
      (handleAddCustomer st columns draft newId nowIso
          (Except.error msg)).1.customers = st.customers ∧
      setHas (handleAddCustomer st columns draft newId nowIso
          (Except.error msg)).1.pendingAdds newId = false ∧
      Event.alertShown ("登録に失敗しました。\nエラー: " ++ msg) ∈
        (handleAddCustomer st columns draft newId nowIso
          (Except.error msg)).2 ∧
      ((handleAddCustomer st columns draft newId nowIso
          (Except.error msg)).2.filter Event.isRemote).length = 1) ∧
    (∀ (st : StoreState) (draft : TaskDraft) (newId nowIso msg : String),
      st.tasks.any (fun t => t.id == newId) = false →
      (handleAddTask st draft newId nowIso (Except.error msg)).1.tasks =
        st.tasks ∧
      setHas (handleAddTask st draft newId nowIso
          (Except.error msg)).1.pendingTaskAdds newId = false ∧
      Event.alertShown ("タスク登録失敗: " ++ msg) ∈
        (handleAddTask st draft newId nowIso (Except.error msg)).2 ∧
      ((handleAddTask st draft newId nowIso
          (Except.error msg)).2.filter Event.isRemote).length = 1) := by
  constructor
  · intro st columns draft newId nowIso msg h
    refine ⟨?_, ?_, ?_, ?_⟩
    · show (st.customers ++ [_]).filter (fun c => c.id != newId) = st.customers
      rw [List.filter_append, filter_id_ne_eq_self Customer.id st.customers newId h]
      simp [List.filter]
    · show setHas (setDelete (setAdd st.pendingAdds newId) newId) newId = false
      rw [setHas_setDelete]
      simp
    · show _ ∈ [Event.storeUpdate "customers", Event.remoteCall "customers" "insert",
        Event.alertShown ("登録に失敗しました。\nエラー: " ++ msg),
        Event.storeUpdate "customers"]
      simp
    · rfl
  · intro st draft newId nowIso msg h
    refine ⟨?_, ?_, ?_, ?_⟩
    · show (st.tasks ++ [_]).filter (fun t => t.id != newId) = st.tasks
      rw [List.filter_append, filter_id_ne_eq_self TaskRec.id st.tasks newId h]
      simp [List.filter]
    · show setHas (setDelete (setAdd st.pendingTaskAdds newId) newId) newId = false
      rw [setHas_setDelete]
      simp
    · show _ ∈ [Event.storeUpdate "tasks", Event.remoteCall "tasks" "insert",
        Event.alertShown ("タスク登録失敗: " ++ msg),
        Event.storeUpdate "tasks"]
      simp
    · rfl

/-- Witness for C2: a failed customer insert at a concrete state leaves the
store at its pre-create collection. -/
theorem create_failure_rollback_witness :
    (handleAddCustomer
        { customers := [{ id := "1", name := "Sato", status := "active",
                          data := [], created_at := "t0" }],
          tasks := [], pendingAdds := [], pendingTaskAdds := [], timers := [] }
        [] { name := "Yamada", status := "active", data := [] }
        "c_1000_5" "t1" (Except.error "network error")).1.customers =
      [{ id := "1", name := "Sato", status := "active", data := [],
         created_at := "t0" }] :=
  (create_failure_rollback.1
      { customers := [{ id := "1", name := "Sato", status := "active",
                        data := [], created_at := "t0" }],
        tasks := [], pendingAdds := [], pendingTaskAdds := [], timers := [] }
      [] { name := "Yamada", status := "active", data := [] }
      "c_1000_5" "t1" "network error" (by decide)).1

/-- C3: for every create sequence (customer or task) whose remote insert
succeeds with a server id (normalized to string) different from the local one,
the collection afterwards is the pre-create collection with the server's full
record (under the new id) in the optimistic record's positional slot, it holds
exactly one record under the new id and none under the old one, the new id is
pending and the old id is not (all under freshness of both ids in the
pre-create collection). -/
theorem create_success_id_swap :
    (∀ (st : StoreState) (columns : List Column) (draft : CustomerDraft)
        (newId nowIso : String) (data : RawCustomer),
      data.id.toStr ≠ newId →
      st.customers.any (fun c => c.id == newId) = false →
      st.customers.any (fun c => c.id == data.id.toStr) = false →
      (handleAddCustomer st columns draft newId nowIso
          (Except.ok data)).1.customers =
        st.customers ++ [normalizeCustomer data] ∧
      ((handleAddCustomer st columns draft newId nowIso
          (Except.ok data)).1.customers.filter
            (fun c => c.id == data.id.toStr)).length = 1 ∧
      ((handleAddCustomer st columns draft newId nowIso
          (Except.ok data)).1.customers.filter
            (fun c => c.id == newId)).length = 0 ∧
      setHas (handleAddCustomer st columns draft newId nowIso
          (Except.ok data)).1.pendingAdds data.id.toStr = true ∧
      setHas (handleAddCustomer st columns draft newId nowIso
          (Except.ok data)).1.pendingAdds newId = false) ∧
    (∀ (st : StoreState) (draft : TaskDraft) (newId nowIso : String)
        (data : RawTask),
      data.id.toStr ≠ newId →
      st.tasks.any (fun t => t.id == newId) = false →
      st.tasks.any (fun t => t.id == data.id.toStr) = false →
      (handleAddTask st draft newId nowIso (Except.ok data)).1.tasks =
        st.tasks ++ [normalizeTask data] ∧
      ((handleAddTask st draft newId nowIso (Except.ok data)).1.tasks.filter
            (fun t => t.id == data.id.toStr)).length = 1 ∧
      ((handleAddTask st draft newId nowIso (Except.ok data)).1.tasks.filter
            (fun t => t.id == newId)).length = 0 ∧
      setHas (handleAddTask st draft newId nowIso
          (Except.ok data)).1.pendingTaskAdds data.id.toStr = true ∧
      setHas (handleAddTask st draft newId nowIso
          (Except.ok data)).1.pendingTaskAdds newId = false) := by
  constructor
  · intro st columns draft newId nowIso data hne hfresh hfresh2
    have hcust : (handleAddCustomer st columns draft newId nowIso
        (Except.ok data)).1.customers = st.customers ++ [normalizeCustomer data] := by
      show ((if data.id.toStr = newId then _ else _ :
          StoreState × List Event)).1.customers = _
      rw [if_neg hne]
      show (st.customers ++ [_]).map
          (fun (c : Customer) => if c.id == newId then normalizeCustomer data else c) = _
      rw [List.map_append,
          map_swap_eq_self Customer.id st.customers newId
            (fun _ => normalizeCustomer data) hfresh]
      simp
    have hpend : (handleAddCustomer st columns draft newId nowIso
        (Except.ok data)).1.pendingAdds =
        setDelete (setAdd (setAdd st.pendingAdds newId) data.id.toStr) newId := by
      show ((if data.id.toStr = newId then _ else _ :
          StoreState × List Event)).1.pendingAdds = _
      rw [if_neg hne]
    refine ⟨hcust, ?_, ?_, ?_, ?_⟩
    · rw [hcust, List.filter_append,
          filter_id_eq_nil Customer.id st.customers data.id.toStr hfresh2]
      simp [normalizeCustomer]
    · rw [hcust, List.filter_append,
          filter_id_eq_nil Customer.id st.customers newId hfresh]
      simp [normalizeCustomer, hne]
    · rw [hpend, setHas_setDelete, setHas_setAdd]
      simp [hne]
    · rw [hpend, setHas_setDelete]
      simp
  · intro st draft newId nowIso data hne hfresh hfresh2
    have htask : (handleAddTask st draft newId nowIso
        (Except.ok data)).1.tasks = st.tasks ++ [normalizeTask data] := by
      show ((if data.id.toStr = newId then _ else _ :
          StoreState × List Event)).1.tasks = _
      rw [if_neg hne]
      show (st.tasks ++ [_]).map
          (fun (t : TaskRec) => if t.id == newId then
              { t with title := data.title, created_at := data.created_at,
                       id := data.id.toStr,
                       customerId := data.customerId.toStr }
            else t) = _
      rw [List.map_append]
      rw [map_swap_eq_self TaskRec.id st.tasks newId _ hfresh]
      simp [normalizeTask]
    have hpend : (handleAddTask st draft newId nowIso
        (Except.ok data)).1.pendingTaskAdds =
        setDelete (setAdd (setAdd st.pendingTaskAdds newId) data.id.toStr) newId := by
      show ((if data.id.toStr = newId then _ else _ :
          StoreState × List Event)).1.pendingTaskAdds = _
      rw [if_neg hne]
    refine ⟨htask, ?_, ?_, ?_, ?_⟩
    · rw [htask, List.filter_append,
          filter_id_eq_nil TaskRec.id st.tasks data.id.toStr hfresh2]
      simp [normalizeTask]
    · rw [htask, List.filter_append,
          filter_id_eq_nil TaskRec.id st.tasks newId hfresh]
      simp [normalizeTask, hne]
    · rw [hpend, setHas_setDelete, setHas_setAdd]
      simp [hne]
    · rw [hpend, setHas_setDelete]
      simp

/-- Witness for C3: creating customer "Yamada" with local id `c_1000_5` while
the server returns id `42` leaves exactly the server record under id `"42"`. -/
theorem create_success_id_swap_witness :
    (handleAddCustomer
        { customers := [], tasks := [], pendingAdds := [],
          pendingTaskAdds := [], timers := [] }
        [] { name := "Yamada", status := "active", data := [] }
        "c_1000_5" "t1"
        (Except.ok { id := RawId.num 42, name := "Yamada", status := "active",
                     data := [], created_at := "t2" })).1.customers =
      [{ id := "42", name := "Yamada", status := "active", data := [],
         created_at := "t2" }] :=
  (create_success_id_swap.1
      { customers := [], tasks := [], pendingAdds := [],
        pendingTaskAdds := [], timers := [] }
      [] { name := "Yamada", status := "active", data := [] }
      "c_1000_5" "t1"
      { id := RawId.num 42, name := "Yamada", status := "active",
        data := [], created_at := "t2" }
      (by decide) (by decide) (by decide)).1

/-- Counterexample to C6: in the id-swap case the locally generated identifier
is removed from the pending set during success handling, while the scheduled
5000 ms release that names it has not yet fired — so it is not removed
"exactly when the grace period elapses". -/
theorem pending_release_not_at_timeout_only :
    setHas (handleAddCustomer
        { customers := [], tasks := [], pendingAdds := [],
          pendingTaskAdds := [], timers := [] }
        [] { name := "Yamada", status := "active", data := [] }
        "c_1000_5" "t1"
        (Except.ok { id := RawId.num 42, name := "Yamada", status := "active",
                     data := [], created_at := "t2" })).1.pendingAdds
      "c_1000_5" = false ∧
    ∃ t ∈ (handleAddCustomer
        { customers := [], tasks := [], pendingAdds := [],
          pendingTaskAdds := [], timers := [] }
        [] { name := "Yamada", status := "active", data := [] }
        "c_1000_5" "t1"
        (Except.ok { id := RawId.num 42, name := "Yamada", status := "active",
                     data := [], created_at := "t2" })).1.timers,
      t.delayMs = 5000 ∧ "c_1000_5" ∈ t.ids := by
  decide

theorem fireTimer_customers (s : StoreState) (d : Nat) (ids : List String) :
    fireTimer s { delayMs := d, kind := "customers", ids := ids } =
      { s with pendingAdds := ids.foldl setDelete s.pendingAdds } := rfl

theorem fireTimer_tasks (s : StoreState) (d : Nat) (ids : List String) :
    fireTimer s { delayMs := d, kind := "tasks", ids := ids } =
      { s with pendingTaskAdds := ids.foldl setDelete s.pendingTaskAdds } := rfl

/-- C6 (amended): for every successful create (customer or task) a single
release is scheduled with a 5000 ms delay naming every identifier used (the
local one, plus the server-returned one when it differs); firing that release
removes those identifiers from the guard set unconditionally — from any
pending state whatsoever, regardless of confirmation; and the surviving
identifier (the server-returned one, which equals the local one when no swap
happened) is still pending when the handler completes.  When the identifiers
differ, the local one is dropped from the pending set already during success
handling rather than at the release. -/
theorem pending_release_schedule :
    (∀ (st : StoreState) (columns : List Column) (draft : CustomerDraft)
        (newId nowIso : String) (data : RawCustomer),
      (∃ t ∈ (handleAddCustomer st columns draft newId nowIso
          (Except.ok data)).1.timers,
        t.delayMs = 5000 ∧ t.kind = "customers" ∧
        newId ∈ t.ids ∧ data.id.toStr ∈ t.ids ∧
        ∀ s : StoreState,
          setHas (fireTimer s t).pendingAdds newId = false ∧
          setHas (fireTimer s t).pendingAdds data.id.toStr = false) ∧
      setHas (handleAddCustomer st columns draft newId nowIso
          (Except.ok data)).1.pendingAdds data.id.toStr = true) ∧
    (∀ (st : StoreState) (draft : TaskDraft) (newId nowIso : String)
        (data : RawTask),
      (∃ t ∈ (handleAddTask st draft newId nowIso
          (Except.ok data)).1.timers,
        t.delayMs = 5000 ∧ t.kind = "tasks" ∧
        newId ∈ t.ids ∧ data.id.toStr ∈ t.ids ∧
        ∀ s : StoreState,
          setHas (fireTimer s t).pendingTaskAdds newId = false ∧
          setHas (fireTimer s t).pendingTaskAdds data.id.toStr = false) ∧
      setHas (handleAddTask st draft newId nowIso
          (Except.ok data)).1.pendingTaskAdds data.id.toStr = true) := by
  constructor
  · intro st columns draft newId nowIso data
    by_cases h : data.id.toStr = newId
    · constructor
      · refine ⟨{ delayMs := 5000, kind := "customers", ids := [newId] }, ?_,
                rfl, rfl, by simp, by simp [h], ?_⟩
        · show _ ∈ ((if data.id.toStr = newId then _ else _ :
              StoreState × List Event)).1.timers
          rw [if_pos h]
          simp
        · intro s
          rw [fireTimer_customers]
          refine ⟨?_, ?_⟩
          · show setHas ([newId].foldl setDelete s.pendingAdds) newId = false
            rw [setHas_foldl_setDelete]
            simp
          · show setHas ([newId].foldl setDelete s.pendingAdds)
                data.id.toStr = false
            rw [h, setHas_foldl_setDelete]
            simp
      · show setHas ((if data.id.toStr = newId then _ else _ :
            StoreState × List Event)).1.pendingAdds data.id.toStr = true
        rw [if_pos h, h]
        show setHas (setAdd st.pendingAdds newId) newId = true
        rw [setHas_setAdd]
        simp
    · constructor
      · refine ⟨{ delayMs := 5000, kind := "customers",
                  ids := [newId, data.id.toStr] }, ?_,
                rfl, rfl, by simp, by simp, ?_⟩
        · show _ ∈ ((if data.id.toStr = newId then _ else _ :
              StoreState × List Event)).1.timers
          rw [if_neg h]
          simp
        · intro s
          rw [fireTimer_customers]
          refine ⟨?_, ?_⟩
          · show setHas ([newId, data.id.toStr].foldl setDelete s.pendingAdds)
                newId = false
            rw [setHas_foldl_setDelete]
            simp
          · show setHas ([newId, data.id.toStr].foldl setDelete s.pendingAdds)
                data.id.toStr = false
            rw [setHas_foldl_setDelete]
            simp
      · show setHas ((if data.id.toStr = newId then _ else _ :
            StoreState × List Event)).1.pendingAdds data.id.toStr = true
        rw [if_neg h]
        show setHas (setDelete (setAdd (setAdd st.pendingAdds newId)
            data.id.toStr) newId) data.id.toStr = true
        rw [setHas_setDelete, setHas_setAdd]
        simp [h]
  · intro st draft newId nowIso data
    by_cases h : data.id.toStr = newId
    · constructor
      · refine ⟨{ delayMs := 5000, kind := "tasks", ids := [newId] }, ?_,
                rfl, rfl, by simp, by simp [h], ?_⟩
        · show _ ∈ ((if data.id.toStr = newId then _ else _ :
              StoreState × List Event)).1.timers
          rw [if_pos h]
          simp
        · intro s
          rw [fireTimer_tasks]
          refine ⟨?_, ?_⟩
          · show setHas ([newId].foldl setDelete s.pendingTaskAdds) newId = false
            rw [setHas_foldl_setDelete]
            simp
          · show setHas ([newId].foldl setDelete s.pendingTaskAdds)
                data.id.toStr = false
            rw [h, setHas_foldl_setDelete]
            simp
      · show setHas ((if data.id.toStr = newId then _ else _ :
            StoreState × List Event)).1.pendingTaskAdds data.id.toStr = true
        rw [if_pos h, h]
        show setHas (setAdd st.pendingTaskAdds newId) newId = true
        rw [setHas_setAdd]
        simp
    · constructor
      · refine ⟨{ delayMs := 5000, kind := "tasks",
                  ids := [newId, data.id.toStr] }, ?_,
                rfl, rfl, by simp, by simp, ?_⟩
        · show _ ∈ ((if data.id.toStr = newId then _ else _ :
              StoreState × List Event)).1.timers
          rw [if_neg h]
          simp
        · intro s
          rw [fireTimer_tasks]
          refine ⟨?_, ?_⟩
          · show setHas ([newId, data.id.toStr].foldl setDelete
                s.pendingTaskAdds) newId = false
            rw [setHas_foldl_setDelete]
            simp
          · show setHas ([newId, data.id.toStr].foldl setDelete
                s.pendingTaskAdds) data.id.toStr = false
            rw [setHas_foldl_setDelete]
            simp
      · show setHas ((if data.id.toStr = newId then _ else _ :
            StoreState × List Event)).1.pendingTaskAdds data.id.toStr = true
        rw [if_neg h]
        show setHas (setDelete (setAdd (setAdd st.pendingTaskAdds newId)
            data.id.toStr) newId) data.id.toStr = true
        rw [setHas_setDelete, setHas_setAdd]
        simp [h]

/-- C8: every mutation handler (customer/task create, update, delete) performs
its optimistic store update strictly before any remote request: each possible
trace contains a remote call, and a store update precedes the first one. -/
theorem optimistic_update_before_remote :
    (∀ (st : StoreState) (columns : List Column) (draft : CustomerDraft)
        (newId nowIso : String) (response : Except String RawCustomer),
      storeBeforeRemote
          (handleAddCustomer st columns draft newId nowIso response).2 = true ∧
      (handleAddCustomer st columns draft newId nowIso response).2.any
          Event.isRemote = true) ∧
    (∀ (st : StoreState) (customerId : String) (upd : CustomerUpdate)
        (selectResp : Except String (List (String × Value))),
      storeBeforeRemote
          (handleUpdateCustomer st customerId upd selectResp).2 = true ∧
      (handleUpdateCustomer st customerId upd selectResp).2.any
          Event.isRemote = true) ∧
    (∀ (st : StoreState) (customerId : String),
      storeBeforeRemote (handleDeleteCustomer st customerId).2 = true ∧
      (handleDeleteCustomer st customerId).2.any Event.isRemote = true) ∧
    (∀ (st : StoreState) (draft : TaskDraft) (newId nowIso : String)
        (response : Except String RawTask),
      storeBeforeRemote (handleAddTask st draft newId nowIso response).2 = true ∧
      (handleAddTask st draft newId nowIso response).2.any
          Event.isRemote = true) ∧
    (∀ (st : StoreState) (taskId : String) (upd : TaskUpdate),
      storeBeforeRemote (handleUpdateTask st taskId upd).2 = true ∧
      (handleUpdateTask st taskId upd).2.any Event.isRemote = true) ∧
    (∀ (st : StoreState) (taskId : String),
      storeBeforeRemote (handleDeleteTask st taskId).2 = true ∧
      (handleDeleteTask st taskId).2.any Event.isRemote = true) := by
  refine ⟨fun st columns draft newId nowIso response => ?_,
          fun st customerId upd selectResp => ?_,
          fun st customerId => ⟨rfl, rfl⟩,
          fun st draft newId nowIso response => ?_,
          fun st taskId upd => ⟨rfl, rfl⟩,
          fun st taskId => ⟨rfl, rfl⟩⟩
  · cases response with
    | error msg => exact ⟨rfl, rfl⟩
    | ok data =>
      by_cases h : data.id.toStr = newId
      · constructor
        · show storeBeforeRemote ((if data.id.toStr = newId then _ else _ :
              StoreState × List Event)).2 = true
          rw [if_pos h]
          rfl
        · show ((if data.id.toStr = newId then _ else _ :
              StoreState × List Event)).2.any Event.isRemote = true
          rw [if_pos h]
          rfl
      · constructor
        · show storeBeforeRemote ((if data.id.toStr = newId then _ else _ :
              StoreState × List Event)).2 = true
          rw [if_neg h]
          rfl
        · show ((if data.id.toStr = newId then _ else _ :
              StoreState × List Event)).2.any Event.isRemote = true
          rw [if_neg h]
          rfl
  · cases hupd : upd.data with
    | some d =>
      cases selectResp with
      | error e =>
        unfold handleUpdateCustomer
        rw [hupd]
        exact ⟨rfl, rfl⟩
      | ok v =>
        unfold handleUpdateCustomer
        rw [hupd]
        exact ⟨rfl, rfl⟩
    | none =>
      unfold handleUpdateCustomer
      rw [hupd]
      exact ⟨rfl, rfl⟩
  · cases response with
    | error msg => exact ⟨rfl, rfl⟩
    | ok data =>
      by_cases h : data.id.toStr = newId
      · constructor
        · show storeBeforeRemote ((if data.id.toStr = newId then _ else _ :
              StoreState × List Event)).2 = true
          rw [if_pos h]
          rfl
        · show ((if data.id.toStr = newId then _ else _ :
              StoreState × List Event)).2.any Event.isRemote = true
          rw [if_pos h]
          rfl
      · constructor
        · show storeBeforeRemote ((if data.id.toStr = newId then _ else _ :
              StoreState × List Event)).2 = true
          rw [if_neg h]
          rfl
        · show ((if data.id.toStr = newId then _ else _ :
              StoreState × List Event)).2.any Event.isRemote = true
          rw [if_neg h]
          rfl

/-- Counterexample to C5: deleting customer `"5"` does not remove the task
referencing it from the in-memory task collection — the handler leaves the
local task list untouched. -/
theorem delete_customer_keeps_local_tasks :
    (handleDeleteCustomer
        { customers := [{ id := "5", name := "Sato", status := "active",
                          data := [], created_at := "t0" }],
          tasks := [{ id := "t1", customerId := "5", title := "dig",
                      created_at := "t0" }],
          pendingAdds := [], pendingTaskAdds := [],
          timers := [] }
        "5").1.tasks.any (fun t => t.customerId == "5") = true := by
  decide

/-- C5 (amended): a customer delete removes the customer from the local store
synchronously and issues a remote delete for the dependent tasks (filtered by
the customer's identifier) before the customer's own remote delete; the
in-memory task collection is not modified by the handler — dependent tasks
disappear locally only via change-feed delete events. -/
theorem delete_customer_cascade :
    ∀ (st : StoreState) (customerId : String),
      (handleDeleteCustomer st customerId).1.customers =
        st.customers.filter (fun c => c.id != customerId) ∧
      (handleDeleteCustomer st customerId).1.tasks = st.tasks ∧
      (handleDeleteCustomer st customerId).2 =
        [Event.storeUpdate "customers", Event.remoteCall "tasks" "delete",
         Event.remoteCall "customers" "delete"] :=
  fun _ _ => ⟨rfl, rfl, rfl⟩

/-- C10: an optimistic customer update with a partial `data` map merges rather
than replaces — in the targeted customer's slot the new record's nested `data`
yields the update's value for every updated key and the previous value for
every other key (and the non-`data` fields follow the partial update) — while
every positional slot holding a customer with a different identifier is left
entirely unchanged. -/
theorem update_customer_data_merge :
    ∀ (st : StoreState) (customerId : String) (updName updStatus : Option String)
      (updData : List (String × Value))
      (selectResp : Except String (List (String × Value))) (i : Nat) (c : Customer),
      st.customers[i]? = some c →
      (c.id ≠ customerId →
        (handleUpdateCustomer st customerId
            { name := updName, status := updStatus, data := some updData }
            selectResp).1.customers[i]? = some c) ∧
      (c.id = customerId →
        (handleUpdateCustomer st customerId
            { name := updName, status := updStatus, data := some updData }
            selectResp).1.customers[i]? =
          some (applyCustomerUpdate
            { name := updName, status := updStatus, data := some updData } c) ∧
        ∀ k, dlookup k (applyCustomerUpdate
            { name := updName, status := updStatus, data := some updData } c).data =
          match dlookup k updData with
          | some v => some v
          | none => dlookup k c.data) := by
  intro st customerId updName updStatus updData selectResp i c hi
  have hcust : (handleUpdateCustomer st customerId
      { name := updName, status := updStatus, data := some updData }
      selectResp).1.customers =
      st.customers.map (fun x => if x.id == customerId then
        applyCustomerUpdate
          { name := updName, status := updStatus, data := some updData } x
        else x) := by
    cases selectResp with
    | error e => rfl
    | ok v => rfl
  constructor
  · intro hne
    rw [hcust, List.getElem?_map, hi]
    have hb : (c.id == customerId) = false := by
      simp [hne]
    show some (if (c.id == customerId) = true then _ else c) = some c
    rw [if_neg (by simp [hb])]
  · intro heq
    constructor
    · rw [hcust, List.getElem?_map, hi]
      have hb : (c.id == customerId) = true := by
        simp [heq]
      show some (if (c.id == customerId) = true then _ else c) = some _
      rw [if_pos hb]
    · intro k
      show dlookup k (jsMergeData c.data updData) = _
      exact dlookup_jsMergeData k c.data updData

/-- Witness for C10: updating customer `c2`'s `data` at key `"k"` leaves the
customer in slot 0 (a different id) untouched. -/
theorem update_customer_data_merge_witness :
    (handleUpdateCustomer
        { customers := [{ id := "c1", name := "Sato", status := "active",
                          data := [("k", Value.str "old")], created_at := "t0" },
                        { id := "c2", name := "Yamada", status := "active",
                          data := [("k", Value.str "old2")], created_at := "t0" }],
          tasks := [], pendingAdds := [], pendingTaskAdds := [], timers := [] }
        "c2" { name := none, status := none, data := some [("k", Value.str "new")] }
        (Except.error "offline")).1.customers[0]? =
      some { id := "c1", name := "Sato", status := "active",
             data := [("k", Value.str "old")], created_at := "t0" } :=
  ((update_customer_data_merge
      { customers := [{ id := "c1", name := "Sato", status := "active",
                        data := [("k", Value.str "old")], created_at := "t0" },
                      { id := "c2", name := "Yamada", status := "active",
                        data := [("k", Value.str "old2")], created_at := "t0" }],
        tasks := [], pendingAdds := [], pendingTaskAdds := [], timers := [] }
      "c2" none none [("k", Value.str "new")] (Except.error "offline") 0
      { id := "c1", name := "Sato", status := "active",
        data := [("k", Value.str "old")], created_at := "t0" }
      (by rfl)).1 (by decide))

/-!
## Column drag-and-drop (`handleDrop`, src/components/CustomerSheet.tsx 513–533)
-/

/-- JS `Array.findIndex`: the index of the first match, `-1` when absent
(`List.findIdx` returns the length when absent). -/
def jsFindIndex (l : List α) (p : α → Bool) : Int :=
  if l.findIdx p = l.length then -1 else Int.ofNat (l.findIdx p)

/-- Memo `sortedColumns` (src/components/CustomerSheet.tsx line 128): the columns
sorted ascending by `order` (JS `sort` with comparator `a.order - b.order`,
stable). -/
def sortedColumns (columns : List Column) : List Column :=
  List.insertionSort (fun a b => a.order ≤ b.order) columns

/-- Handler `handleDrop` (src/components/CustomerSheet.tsx lines 513–533): removes the
dragged column from the sorted list, reinserts it at the drop index, and maps
every column's `order` to its position in the reordered list.  Modelled on the
domain where the dragged column occurs in the sorted list and the drop index
is in bounds (the claim's hypotheses); the `else` branch stands in for the
out-of-domain `findIndex = -1` case. -/
def handleDrop (columns : List Column) (draggingColumnId : String)
    (dropIndex : Nat) : List Column :=
  let sorted := sortedColumns columns
  let startIndex := sorted.findIdx (fun c => c.id == draggingColumnId)
  if h : startIndex < sorted.length then
    let removed := sorted[startIndex]
    let rest := sorted.eraseIdx startIndex
    let newColumnsOrder := rest.insertIdx dropIndex removed
    columns.map (fun col =>
      { col with order := jsFindIndex newColumnsOrder (fun c => c.id == col.id) })
  else columns

theorem jsFindIndex_of_found {l : List α} {p : α → Bool}
    (h : l.findIdx p < l.length) :
    jsFindIndex l p = Int.ofNat (l.findIdx p) := by
  unfold jsFindIndex
  rw [if_neg (Nat.ne_of_lt h)]

theorem findIdx_getId_getElem (getId : α → String) (l : List α)
    (hnd : (l.map getId).Nodup) (i : Nat) (hi : i < l.length) :
    l.findIdx (fun c => getId c == getId l[i]) = i := by
  rw [List.findIdx_eq hi]
  refine ⟨by simp, fun j hji => ?_⟩
  have hj : j < l.length := Nat.lt_trans hji hi
  have hj2 : j < (l.map getId).length := by simpa using hj
  have hi2 : i < (l.map getId).length := by simpa using hi
  have key : ¬ getId l[j] = getId l[i] := by
    intro hEq
    have h2 : (l.map getId)[j] = (l.map getId)[i] := by
      rw [List.getElem_map, List.getElem_map]
      exact hEq
    have := (hnd.getElem_inj_iff).mp h2
    exact absurd this (Nat.ne_of_lt hji)
  simpa using key

/-- C9: for every column drop gesture whose dragged column occurs in the
sorted column list and whose drop index is in bounds, the column list passed
to the update handler holds exactly the same columns (same identifiers,
titles, types, options, removable flags, in the same slots), its `order`
fields are a permutation of `0..n-1`, and the dragged column's `order` equals
the drop index. -/
theorem handle_drop_spec :
    ∀ (columns : List Column) (dragId : String) (dropIndex : Nat),
      (columns.map Column.id).Nodup →
      dragId ∈ (sortedColumns columns).map Column.id →
      dropIndex < columns.length →
      (handleDrop columns dragId dropIndex).map
          (fun c => (c.id, c.title, c.type, c.options, c.removable)) =
        columns.map (fun c => (c.id, c.title, c.type, c.options, c.removable)) ∧
      ((handleDrop columns dragId dropIndex).map Column.order).Perm
        ((List.range columns.length).map Int.ofNat) ∧
      (∀ c ∈ handleDrop columns dragId dropIndex, c.id = dragId →
        c.order = Int.ofNat dropIndex) := by
  intro columns dragId dropIndex hnodup hmem hdrop
  have hperm0 : (sortedColumns columns).Perm columns := by
    unfold sortedColumns
    exact List.perm_insertionSort _ columns
  have hex : ∃ x ∈ sortedColumns columns, (fun c => c.id == dragId) x = true := by
    obtain ⟨c, hc, hcid⟩ := List.mem_map.mp hmem
    exact ⟨c, hc, by simp [hcid]⟩
  have hlt : (sortedColumns columns).findIdx (fun c => c.id == dragId) <
      (sortedColumns columns).length := List.findIdx_lt_length_of_exists hex
  set sorted := sortedColumns columns with hsorteddef
  set s := sorted.findIdx (fun c => c.id == dragId) with hsdef
  have hremoved_id : (sorted[s]).id = dragId := by
    have := @List.findIdx_getElem _ (fun c => c.id == dragId) sorted hlt
    simpa using this
  set removed := sorted[s] with hremdef
  set rest := sorted.eraseIdx s with hrestdef
  have hdecomp : sorted = sorted.take s ++ removed :: sorted.drop (s + 1) := by
    conv_lhs => rw [← List.take_append_drop s sorted]
    rw [← List.getElem_cons_drop sorted s hlt]
  have hperm2 : sorted.Perm (removed :: rest) := by
    rw [hrestdef, List.eraseIdx_eq_take_drop_succ]
    conv_lhs => rw [hdecomp]
    exact List.perm_middle
  have hrest_len : rest.length + 1 = columns.length := by
    have h1 := hperm2.length_eq
    have h2 := hperm0.length_eq
    simp only [List.length_cons] at h1
    omega
  have hle : dropIndex ≤ rest.length := by omega
  set L := rest.insertIdx dropIndex removed with hLdef
  have hpermNC : L.Perm columns :=
    (List.perm_insertIdx removed rest hle).trans (hperm2.symm.trans hperm0)
  have hlenL : L.length = columns.length := hpermNC.length_eq
  have hdropltL : dropIndex < L.length := by omega
  have hnodupL : (L.map Column.id).Nodup :=
    ((hpermNC.map Column.id).nodup_iff).mpr hnodup
  have hLdrop : L[dropIndex] = removed :=
    List.getElem_insertIdx_self rest removed dropIndex hle
  have hfindL : L.findIdx (fun c => c.id == dragId) = dropIndex := by
    rw [List.findIdx_eq hdropltL]
    constructor
    · rw [hLdrop]
      simp [hremoved_id]
    · intro j hji
      have hjrest : j < rest.length := by omega
      have hjL : j < L.length := by omega
      have hLj : L[j] = rest[j] :=
        List.getElem_insertIdx_of_lt rest removed dropIndex j hji hjrest
      rw [hLj]
      have hnodup2 : ((removed :: rest).map Column.id).Nodup := by
        have hsortednd : (sorted.map Column.id).Nodup :=
          ((hperm0.map Column.id).nodup_iff).mpr hnodup
        exact ((hperm2.map Column.id).nodup_iff).mp hsortednd
      have hnotin : removed.id ∉ rest.map Column.id := by
        simp only [List.map_cons, List.nodup_cons] at hnodup2
        exact hnodup2.1
      have : (rest[j]).id ≠ dragId := by
        intro hEq
        apply hnotin
        rw [hremoved_id, ← hEq]
        exact List.mem_map.mpr ⟨rest[j], List.getElem_mem hjrest, rfl⟩
      simpa using this
  have hED : handleDrop columns dragId dropIndex =
      columns.map (fun col =>
        { col with order := jsFindIndex L (fun c => c.id == col.id) }) := by
    unfold handleDrop
    rw [dif_pos hlt]
  refine ⟨?_, ?_, ?_⟩
  · rw [hED, List.map_map]
    apply List.map_congr_left
    intro a _
    rfl
  · rw [hED, List.map_map]
    have hmapg : columns.map ((fun (c : Column) => c.order) ∘ (fun col =>
        { col with order := jsFindIndex L (fun c => c.id == col.id) })) =
        columns.map (fun col => jsFindIndex L (fun c => c.id == col.id)) := by
      apply List.map_congr_left
      intro a _
      rfl
    rw [hmapg]
    have hLmap : L.map (fun col => jsFindIndex L (fun c => c.id == col.id)) =
        (List.range columns.length).map Int.ofNat := by
      apply List.ext_getElem
      · simp [hlenL]
      · intro i h1 h2
        have hiL : i < L.length := by simpa using h1
        rw [List.getElem_map, List.getElem_map, List.getElem_range]
        have hfi : L.findIdx (fun c => c.id == (L[i]).id) = i :=
          findIdx_getId_getElem Column.id L hnodupL i hiL
        have : jsFindIndex L (fun c => c.id == (L[i]).id) = Int.ofNat i := by
          rw [jsFindIndex_of_found (by rw [hfi]; exact hiL), hfi]
        exact this
    have hstep := (hpermNC.symm).map
      (fun col => jsFindIndex L (fun c => c.id == col.id))
    rw [hLmap] at hstep
    exact hstep
  · intro c hc hcid
    rw [hED] at hc
    obtain ⟨col, hcol, hfc⟩ := List.mem_map.mp hc
    have hcolid : col.id = dragId := by
      rw [← hcid, ← hfc]
    have hcord : c.order = jsFindIndex L (fun x => x.id == col.id) := by
      rw [← hfc]
    rw [hcord, hcolid]
    rw [jsFindIndex_of_found (by rw [hfindL]; exact hdropltL), hfindL]

/-- Witness for C9 at a concrete input: dragging column `b` (sorted position
1) to position 0 renumbers the orders to a permutation of `0..1`. -/
theorem handle_drop_spec_witness :
    ((handleDrop
        [{ id := "a", title := "A", type := "text", options := [],
           removable := true, order := 0 },
         { id := "b", title := "B", type := "text", options := [],
           removable := true, order := 1 }]
        "b" 0).map Column.order).Perm
      ((List.range 2).map Int.ofNat) :=
  (handle_drop_spec
    [{ id := "a", title := "A", type := "text", options := [],
       removable := true, order := 0 },
     { id := "b", title := "B", type := "text", options := [],
       removable := true, order := 1 }]
    "b" 0 (by decide) (by decide) (by decide)).2.1
